import Mathlib

/-!
# Session layer of the chat server: `chat/handle_ws.go`

A shallow embedding of `Client.kill`, `Client.readWS`, `Client.writeWS` and
`handlerWS`.

Every call the Go code makes on the outside world (the websocket connection,
the hub's channels, the room's `manage`, the logger, the ticker) is recorded,
in program order, as an `Event` of a trace.  What the outside world answers to
such a call (the result of `ReadMessage`, the error returned by `WriteMessage`
or by `manage`, which `select` case fires) is an input of the model, so a
theorem quantified over these inputs holds for every behaviour of the
collaborators.

The types `User`, `Room`, `Message`, `Hub`, `Unreg`, `Reg` and the methods
`checkPrivilege`, `addRoomInfo` are declared outside `handle_ws.go`; the types
`User` and `Room` are type parameters and the methods (with `json.Marshal`,
`json.Unmarshal`) are the fields of `Deps`.

Pointers that the code dereferences unconditionally (`c.hub`, `c.hub.room`,
`c.user`) are values; pointers that the code tests or merely passes on
(`msg.Sender`, `msg.Recipient`, `msg.Room`, a `*Message` taken from the
mailbox) are `Option`s, `none` being `nil`.
-/

namespace Chat

/-- One second as a `time.Duration`, which counts nanoseconds. -/
def second : Nat := 1000000000

/-- Constant `pongWait = 3 * time.Second`. -/
def pongWait : Nat := 3 * second

/-- Constant `pingPeriod = 2 * time.Second`. -/
def pingPeriod : Nat := 2 * second

/-- Constant `maxMessageSize = 512`. -/
def maxMessageSize : Nat := 512

/-- The two websocket frame kinds written by this file
(`websocket.TextMessage`, `websocket.PingMessage`). -/
inductive MessageType where
  | TextMessage
  | PingMessage
  deriving DecidableEq, Repr

/-- The `Message` struct as far as `handle_ws.go` uses it: `Action`, `Sender`,
`Recipient` and `Room` are read or written by `readWS`; `Text` is the body
named by the wire schema, which `readWS` never touches. -/
structure Message (User Room : Type) where
  Action : String
  Sender : Option User
  Recipient : Option User
  Room : Option Room
  Text : String
  deriving DecidableEq, Repr

/-- The `Hub` struct as far as its fields are data: the room it serves.  Its
channels `register`, `unregister` and `message` appear as events. -/
structure Hub (Room : Type) where
  room : Room
  deriving DecidableEq, Repr

/-- The `Client` struct.  `conn` is the identity of the connection handle; the
channel `message` is the source of the `Select.mailbox` inputs of `writeWS`. -/
structure Client (User Room : Type) where
  hub : Hub Room
  conn : Nat
  user : User
  deriving DecidableEq, Repr

/-- The `Unreg` struct sent on `hub.unregister`. -/
structure Unreg (User Room : Type) where
  client : Client User Room
  msg : String
  deriving DecidableEq, Repr

/-- The `Reg` struct sent on `hub.register`. -/
structure Reg (User Room : Type) where
  client : Client User Room
  deriving DecidableEq, Repr

/-- What the code of this file relies on but does not define. -/
structure Deps (User Room : Type) where
  /-- Field `Username` of `User`. -/
  Username : User → String
  /-- Method `(*User).checkPrivilege(action)`. -/
  checkPrivilege : User → String → Bool
  /-- Method `(*User).addRoomInfo(roomId)`, as the user it leaves behind. -/
  addRoomInfo : User → Int → User
  /-- Field `Id` of `Room`. -/
  Id : Room → Int
  /-- Function `json.Unmarshal(data, &msg)` on a zero `msg`: the decoded message or the error. -/
  Unmarshal : String → Except String (Message User Room)
  /-- Function `json.Marshal(msg)` of a `*Message`: the encoding or the error. -/
  Marshal : Option (Message User Room) → Except String String

/-- The calls on the outside world, in program order. -/
inductive Event (User Room : Type) where
  /-- `c.conn.SetReadLimit(n)` -/
  | setReadLimit (n : Nat)
  /-- `c.conn.SetReadDeadline(time.Now().Add(d))` -/
  | setReadDeadline (d : Nat)
  /-- `c.conn.SetPongHandler(...)` -/
  | setPongHandler
  /-- `c.conn.ReadMessage()` returned; `ok` tells whether it returned a frame. -/
  | connRead (ok : Bool)
  /-- `c.conn.WriteMessage(t, data)` and whether it returned an error. -/
  | connWrite (t : MessageType) (data : String) (failed : Bool)
  /-- `c.conn.Close()` -/
  | connClose
  /-- `log.Println(...)` -/
  | log (line : String)
  /-- `c.hub.message <- &msg` -/
  | hubMessage (msg : Message User Room)
  /-- `c.hub.room.manage(actor, target, action)` and whether it returned an error. -/
  | manage (actor : User) (target : Option User) (action : String) (failed : Bool)
  /-- `hub.register <- &Reg{...}` -/
  | hubRegister (r : Reg User Room)
  /-- `c.hub.unregister <- un` -/
  | hubUnregister (un : Unreg User Room)
  /-- `time.NewTicker(d)` -/
  | newTicker (d : Nat)
  /-- `ticker.Stop()` -/
  | tickerStop
  /-- `msg := <-c.message` -/
  | recvMessage (msg : Option (Message User Room))
  /-- `<-ticker.C` -/
  | recvTick
  deriving DecidableEq, Repr

/-- The event is a send on `hub.unregister`. -/
def Event.isUnregister {User Room : Type} : Event User Room → Bool
  | .hubUnregister _ => true
  | _ => false

/-- The event is a send on `hub.message`. -/
def Event.isHubMessage {User Room : Type} : Event User Room → Bool
  | .hubMessage _ => true
  | _ => false

/-- The event is a call of `manage`. -/
def Event.isManage {User Room : Type} : Event User Room → Bool
  | .manage _ _ _ _ => true
  | _ => false

/-- The event is a call of `c.conn.WriteMessage`. -/
def Event.isConnWrite {User Room : Type} : Event User Room → Bool
  | .connWrite _ _ _ => true
  | _ => false

/-- The event is a call of `c.conn.WriteMessage` that returned an error. -/
def Event.isFailedWrite {User Room : Type} : Event User Room → Bool
  | .connWrite _ _ failed => failed
  | _ => false

/-- The event is a call of `c.conn.ReadMessage`. -/
def Event.isConnRead {User Room : Type} : Event User Room → Bool
  | .connRead _ => true
  | _ => false

/-- The event is a call of `ticker.Stop`. -/
def Event.isTickerStop {User Room : Type} : Event User Room → Bool
  | .tickerStop => true
  | _ => false

/-- `log.Println(a, b)`: the operands separated by a blank. -/
def println2 (a b : String) : String := a ++ " " ++ b

/-! ## `Client.kill` -/

/-- `func (c *Client) kill(msg *Message)`.  `writeErr` is the error the
connection answers to `WriteMessage`, should it be called. -/
def kill {User Room : Type} (d : Deps User Room) (_c : Client User Room)
    (msg : Option (Message User Room)) (writeErr : Option String) : List (Event User Room) :=
  match d.Marshal msg with
  | .error err => [.log (println2 "JSON encoding error:" err)]
  | .ok msgJson =>
    match writeErr with
    | some err =>
      [.connWrite .TextMessage msgJson true, .log (println2 "Bye-message write error:" err)]
    | none =>
      [.connWrite .TextMessage msgJson false, .connClose]

/-! ## `Client.readWS` -/

/-- The answer of the connection to one `c.conn.ReadMessage()`. -/
inductive ReadResult where
  /-- An error, its text, and what
  `websocket.IsUnexpectedCloseError(err, websocket.CloseGoingAway)` says of it. -/
  | error (err : String) (unexpectedClose : Bool)
  /-- A frame. -/
  | data (bytes : String)
  deriving DecidableEq, Repr

/-- The outside world during one turn of the loop of `readWS`: what
`ReadMessage` returns, and the error `manage` returns should it be called in
this turn. -/
structure Frame where
  read : ReadResult
  manageErr : Option String
  deriving DecidableEq, Repr

/-- The deferred function of `readWS` (lines 59-67) and the second half of the
deferred function of `writeWS` (lines 124-128): the `Unreg` that is built. -/
def goneUnreg {User Room : Type} (d : Deps User Room) (c : Client User Room) :
    Unreg User Room :=
  { client := c, msg := d.Username c.user ++ " has gone" }

/-- Lines 92-95 of `readWS`: the room of the decoded message is overwritten
with the room of the session's hub, and a recipient, when there is one, gets
the room's id through `addRoomInfo`. -/
def stampRoom {User Room : Type} (d : Deps User Room) (c : Client User Room)
    (msg0 : Message User Room) : Message User Room :=
  let msg : Message User Room := { msg0 with Room := some c.hub.room }
  match msg.Recipient with
  | some r => { msg with Recipient := some (d.addRoomInfo r (d.Id c.hub.room)) }
  | none => msg

/-- The `switch msg.Action` of `readWS` (lines 97-114): the events, and whether
the loop goes on (`true`) or the function returns (`false`).  `manageErr` is
the error `manage` returns, should it be called. -/
def dispatch {User Room : Type} (d : Deps User Room) (c : Client User Room)
    (manageErr : Option String) (msg : Message User Room) : List (Event User Room) × Bool :=
  if msg.Action = "message" then
    ([.hubMessage { msg with Sender := some c.user }], true)
  else if msg.Action = "mute" ∨ msg.Action = "kick" ∨ msg.Action = "ban" then
    if d.checkPrivilege c.user msg.Action then
      match manageErr with
      | some err =>
        ([.manage c.user msg.Recipient msg.Action true,
          .log (println2 "User management error:" err)], false)
      | none => ([.manage c.user msg.Recipient msg.Action false], true)
    else
      ([.log (println2 "Not enough rights for action:" msg.Action)], false)
  else ([], true)

/-- One turn of the `for` loop of `readWS` (lines 77-114): the events of the
turn, and whether the loop goes on (`true`) or the function returns (`false`). -/
def readFrame {User Room : Type} (d : Deps User Room) (c : Client User Room)
    (f : Frame) : List (Event User Room) × Bool :=
  match f.read with
  | .error err unexpected =>
    if unexpected then ([.connRead false, .log (println2 "Read error:" err)], false)
    else ([.connRead false], false)
  | .data data =>
    match d.Unmarshal data with
    | .error err => ([.connRead true, .log (println2 "JSON decode error:" err)], false)
    | .ok msg =>
      (.connRead true :: (dispatch d c f.manageErr (stampRoom d c msg)).1,
        (dispatch d c f.manageErr (stampRoom d c msg)).2)

/-- The `for` loop of `readWS` over the turns the outside world supplies: the
events, and whether the loop was left (`true`) or is still waiting in
`ReadMessage` when the supplied turns end (`false`). -/
def readLoop {User Room : Type} (d : Deps User Room) (c : Client User Room) :
    List Frame → List (Event User Room) × Bool
  | [] => ([], false)
  | f :: fs =>
    if (readFrame d c f).2 then
      ((readFrame d c f).1 ++ (readLoop d c fs).1, (readLoop d c fs).2)
    else ((readFrame d c f).1, true)

/-- The statements of `readWS` before its loop (lines 69-74). -/
def readSetup {User Room : Type} : List (Event User Room) :=
  [.setReadLimit maxMessageSize, .setReadDeadline pongWait, .setPongHandler]

/-- `func (c *Client) readWS()`: the trace, and whether the function has
returned.  The deferred function runs when, and only when, the loop is left. -/
def readWS {User Room : Type} (d : Deps User Room) (c : Client User Room)
    (frames : List Frame) : List (Event User Room) × Bool :=
  (readSetup ++ (readLoop d c frames).1 ++
    (if (readLoop d c frames).2 then [.hubUnregister (goneUnreg d c)] else []),
   (readLoop d c frames).2)

/-! ## `Client.writeWS` -/

/-- The outside world during one turn of the loop of `writeWS`: which case of
the `select` fires, with the value received, and the error the connection
answers to `WriteMessage` should it be called in this turn. -/
inductive Select (User Room : Type) where
  /-- `case msg := <-c.message` -/
  | mailbox (msg : Option (Message User Room)) (writeErr : Option String)
  /-- `case <- ticker.C` -/
  | tick (writeErr : Option String)
  deriving DecidableEq, Repr

/-- One turn of the `for` loop of `writeWS` (lines 132-160): the events of the
turn, and whether the loop goes on (`true`) or the function returns (`false`). -/
def writeSelect {User Room : Type} (d : Deps User Room) (_c : Client User Room)
    (s : Select User Room) : List (Event User Room) × Bool :=
  match s with
  | .mailbox msg writeErr =>
    match d.Marshal msg with
    | .error err => ([.recvMessage msg, .log (println2 "JSON encoding error:" err)], true)
    | .ok msgJson =>
      match writeErr with
      | some err =>
        ([.recvMessage msg, .connWrite .TextMessage msgJson true,
          .log (println2 "Message write error:" err)], false)
      | none => ([.recvMessage msg, .connWrite .TextMessage msgJson false], true)
  | .tick writeErr =>
    match writeErr with
    | some err =>
      ([.recvTick, .connWrite .PingMessage "" true,
        .log (println2 "Ping write error:" err)], false)
    | none => ([.recvTick, .connWrite .PingMessage "" false], true)

/-- The `for` loop of `writeWS` over the turns the outside world supplies: the
events, and whether the loop was left (`true`) or is still waiting in the
`select` when the supplied turns end (`false`). -/
def writeLoop {User Room : Type} (d : Deps User Room) (c : Client User Room) :
    List (Select User Room) → List (Event User Room) × Bool
  | [] => ([], false)
  | s :: ss =>
    if (writeSelect d c s).2 then
      ((writeSelect d c s).1 ++ (writeLoop d c ss).1, (writeLoop d c ss).2)
    else ((writeSelect d c s).1, true)

/-- `func (c *Client) writeWS()`: the trace, and whether the function has
returned.  The deferred function runs when, and only when, the loop is left. -/
def writeWS {User Room : Type} (d : Deps User Room) (c : Client User Room)
    (selects : List (Select User Room)) : List (Event User Room) × Bool :=
  ([.newTicker pingPeriod] ++ (writeLoop d c selects).1 ++
    (if (writeLoop d c selects).2 then [.tickerStop, .hubUnregister (goneUnreg d c)] else []),
   (writeLoop d c selects).2)

/-! ## `handlerWS` -/

/-- The events of two tasks that run concurrently, in one of the orders a
scheduler can produce: `true` lets the first task perform its next event,
`false` the second. -/
def interleave {α : Type} : List Bool → List α → List α → List α
  | _, [], ys => ys
  | _, x :: xs, [] => x :: xs
  | [], x :: xs, y :: ys => x :: xs ++ y :: ys
  | true :: s, x :: xs, y :: ys => x :: interleave s xs (y :: ys)
  | false :: s, x :: xs, y :: ys => y :: interleave s (x :: xs) ys

/-- Go's conversion `string(n)` of an integer: the UTF-8 text of the code point
`n`, or of U+FFFD when `n` is not a code point. -/
def runeString (n : Int) : String :=
  if 0 ≤ n ∧ n.toNat.isValidChar then String.singleton (Char.ofNat n.toNat) else "\uFFFD"

/-- The `Client` literal of `handlerWS` (lines 187-192). -/
def newClient {User Room : Type} (hub : Hub Room) (conn : Nat) (user : User) :
    Client User Room :=
  { hub := hub, conn := conn, user := user }

/-- `func handlerWS(w, r)`.  `roomId` is `strconv.Atoi(vars["id"])`, `hubs` the
global map, `upgrade` the result of `upgrader.Upgrade`, `user` the `*User` in
the request context; `frames` and `selects` are what the outside world supplies
to `readWS` and `writeWS`, `sched` the order in which the two tasks run. -/
def handlerWS {User Room : Type} (d : Deps User Room) (hubs : Int → Option (Hub Room))
    (roomId : Int) (upgrade : Except String Nat) (user : User)
    (frames : List Frame) (selects : List (Select User Room)) (sched : List Bool) :
    List (Event User Room) :=
  match hubs roomId with
  | none => [.log ("No hub for room ID" ++ runeString roomId)]
  | some hub =>
    match upgrade with
    | .error err => [.log (println2 "Open connection error:" err)]
    | .ok conn =>
      [.log "Successfully connected", .hubRegister { client := newClient hub conn user }] ++
        interleave sched (writeWS d (newClient hub conn user) selects).1
          (readWS d (newClient hub conn user) frames).1

/-! ## A concrete deployment, for evaluating the definitions -/

/-- A user of the example deployment. -/
structure ExUser where
  name : String
  moderator : Bool
  room : Option Int
  deriving DecidableEq, Repr

/-- The frames the example codec decodes: a chat message that tries to forge
its sender and room, a ban that names its target, a ban that names nobody, a
message with an action the server does not know. -/
def exUnmarshal (data : String) : Except String (Message ExUser Int) :=
  if data = "chat hi" then
    .ok { Action := "message", Sender := some ⟨"mallory", true, some 9⟩, Recipient := none,
          Room := some 9, Text := "hi" }
  else if data = "ban bob" then
    .ok { Action := "ban", Sender := none, Recipient := some ⟨"bob", false, none⟩,
          Room := none, Text := "" }
  else if data = "ban" then
    .ok { Action := "ban", Sender := none, Recipient := none, Room := none, Text := "" }
  else if data = "wave" then
    .ok { Action := "wave", Sender := none, Recipient := none, Room := none, Text := "" }
  else .error "invalid character"

/-- The example codec encodes a message as its action and text, a nil message
as `null`, and fails on a message without action. -/
def exMarshal : Option (Message ExUser Int) → Except String String
  | none => .ok "null"
  | some m => if m.Action = "" then .error "unsupported value" else .ok (m.Action ++ " " ++ m.Text)

/-- The example deployment: moderators hold every privilege. -/
def exDeps : Deps ExUser Int where
  Username := fun u => u.name
  checkPrivilege := fun u _ => u.moderator
  addRoomInfo := fun u id => { u with room := some id }
  Id := fun r => r
  Unmarshal := exUnmarshal
  Marshal := exMarshal

/-- The session of the plain user alice in room 5. -/
def exAlice : Client ExUser Int :=
  { hub := { room := 5 }, conn := 1, user := ⟨"alice", false, some 5⟩ }

/-- The session of the moderator carol in room 5. -/
def exCarol : Client ExUser Int :=
  { hub := { room := 5 }, conn := 2, user := ⟨"carol", true, some 5⟩ }

/-! ## The loops -/

theorem readLoop_cons_continue {User Room : Type} (d : Deps User Room) (c : Client User Room)
    (f : Frame) (fs : List Frame) (h : (readFrame d c f).2 = true) :
    readLoop d c (f :: fs) = ((readFrame d c f).1 ++ (readLoop d c fs).1, (readLoop d c fs).2) := by
  simp [readLoop, h]

theorem readLoop_cons_return {User Room : Type} (d : Deps User Room) (c : Client User Room)
    (f : Frame) (fs : List Frame) (h : (readFrame d c f).2 = false) :
    readLoop d c (f :: fs) = ((readFrame d c f).1, true) := by
  simp [readLoop, h]

theorem readLoop_append {User Room : Type} (d : Deps User Room) (c : Client User Room)
    (pre rest : List Frame) (h : (readLoop d c pre).2 = false) :
    readLoop d c (pre ++ rest) =
      ((readLoop d c pre).1 ++ (readLoop d c rest).1, (readLoop d c rest).2) := by
  induction pre with
  | nil => simp [readLoop]
  | cons f fs ih =>
    by_cases hf : (readFrame d c f).2 = true
    · rw [readLoop_cons_continue d c f fs hf] at h
      rw [List.cons_append, readLoop_cons_continue d c f _ hf, ih h,
        readLoop_cons_continue d c f fs hf]
      simp
    · simp only [Bool.not_eq_true] at hf
      rw [readLoop_cons_return d c f fs hf] at h
      simp at h

/-- The reader has reached a frame on which its loop body returns: the trace
ends with the events of that frame and the deferred `Unreg`, and no later frame
is read. -/
theorem readWS_return_at {User Room : Type} (d : Deps User Room) (c : Client User Room)
    (pre post : List Frame) (f : Frame) (hpre : (readLoop d c pre).2 = false)
    (hf : (readFrame d c f).2 = false) :
    readWS d c (pre ++ f :: post) =
      (readSetup ++ (readLoop d c pre).1 ++ (readFrame d c f).1 ++
        [.hubUnregister (goneUnreg d c)], true) := by
  simp [readWS, readLoop_append d c pre (f :: post) hpre, readLoop_cons_return d c f post hf]

/-- The reader has reached a frame on which its loop body goes on: the rest of
the run is the loop on the frames that follow. -/
theorem readLoop_continue_at {User Room : Type} (d : Deps User Room) (c : Client User Room)
    (pre post : List Frame) (f : Frame) (hpre : (readLoop d c pre).2 = false)
    (hf : (readFrame d c f).2 = true) :
    readLoop d c (pre ++ f :: post) =
      ((readLoop d c pre).1 ++ (readFrame d c f).1 ++ (readLoop d c post).1,
        (readLoop d c post).2) := by
  simp [readLoop_append d c pre (f :: post) hpre, readLoop_cons_continue d c f post hf]

theorem stampRoom_eq {User Room : Type} (d : Deps User Room) (c : Client User Room)
    (m : Message User Room) :
    stampRoom d c m =
      { Action := m.Action, Sender := m.Sender,
        Recipient := m.Recipient.map (fun r => d.addRoomInfo r (d.Id c.hub.room)),
        Room := some c.hub.room, Text := m.Text } := by
  unfold stampRoom
  cases h : m.Recipient <;> simp [h]

theorem readFrame_decoded {User Room : Type} (d : Deps User Room) (c : Client User Room)
    (f : Frame) (data : String) (m : Message User Room)
    (hread : f.read = .data data) (hdec : d.Unmarshal data = .ok m) :
    readFrame d c f =
      (.connRead true :: (dispatch d c f.manageErr (stampRoom d c m)).1,
        (dispatch d c f.manageErr (stampRoom d c m)).2) := by
  unfold readFrame
  rw [hread]
  simp only [hdec]

/-- Every send on `hub.message` made by the `switch` carries the session's
user as sender and leaves the room as it finds it. -/
theorem dispatch_hubMessage {User Room : Type} (d : Deps User Room) (c : Client User Room)
    (me : Option String) (m sent : Message User Room)
    (h : Event.hubMessage sent ∈ (dispatch d c me m).1) :
    sent.Sender = some c.user ∧ sent.Room = m.Room := by
  unfold dispatch at h
  by_cases h1 : m.Action = "message"
  · simp [h1] at h
    subst h
    exact ⟨rfl, rfl⟩
  · by_cases h2 : m.Action = "mute" ∨ m.Action = "kick" ∨ m.Action = "ban"
    · by_cases h3 : d.checkPrivilege c.user m.Action = true
      · cases me <;> simp [h1, h2, h3] at h
      · simp [h1, h2, h3] at h
    · simp [h1, h2] at h

/-- Every send on `hub.message` made in one turn of the reader carries the
session's user and room. -/
theorem readFrame_hubMessage {User Room : Type} (d : Deps User Room) (c : Client User Room)
    (f : Frame) (sent : Message User Room) (h : Event.hubMessage sent ∈ (readFrame d c f).1) :
    sent.Sender = some c.user ∧ sent.Room = some c.hub.room := by
  cases hr : f.read with
  | error err u =>
    unfold readFrame at h
    rw [hr] at h
    cases u <;> simp at h
  | data data =>
    cases hd : d.Unmarshal data with
    | error e =>
      unfold readFrame at h
      rw [hr] at h
      simp [hd] at h
    | ok m =>
      rw [readFrame_decoded d c f data m hr hd] at h
      simp only [List.mem_cons, reduceCtorEq, false_or] at h
      have := dispatch_hubMessage d c f.manageErr _ sent h
      rw [stampRoom_eq] at this
      exact this

theorem readLoop_hubMessage {User Room : Type} (d : Deps User Room) (c : Client User Room)
    (frames : List Frame) (sent : Message User Room)
    (h : Event.hubMessage sent ∈ (readLoop d c frames).1) :
    sent.Sender = some c.user ∧ sent.Room = some c.hub.room := by
  induction frames with
  | nil => simp [readLoop] at h
  | cons f fs ih =>
    unfold readLoop at h
    split at h
    · rcases List.mem_append.1 h with h1 | h1
      · exact readFrame_hubMessage d c f sent h1
      · exact ih h1
    · exact readFrame_hubMessage d c f sent h

/-- The turn of the reader on a frame that decodes to a chat message. -/
theorem readFrame_message {User Room : Type} (d : Deps User Room) (c : Client User Room)
    (f : Frame) (data : String) (m : Message User Room)
    (hread : f.read = .data data) (hdec : d.Unmarshal data = .ok m)
    (hact : m.Action = "message") :
    readFrame d c f =
      ([.connRead true,
        .hubMessage { Action := "message", Sender := some c.user,
                      Recipient := m.Recipient.map (fun r => d.addRoomInfo r (d.Id c.hub.room)),
                      Room := some c.hub.room, Text := m.Text }], true) := by
  rw [readFrame_decoded d c f data m hread hdec, stampRoom_eq]
  simp [dispatch, hact]

/-- C1: whenever the reader reaches a frame that decodes to a message whose
action is "message", whatever sender and room the frame carried, it submits to
`hub.message` exactly one message, whose Sender is the session's user and whose
Room is the room of the session's hub (action and text are the frame's), and
goes on; and over any run every message submitted to `hub.message` has this
Sender and this Room. -/
theorem readWS_stamps_sender_and_room {User Room : Type} (d : Deps User Room)
    (c : Client User Room) (pre post : List Frame) (f : Frame) (data : String)
    (m : Message User Room) (hpre : (readLoop d c pre).2 = false)
    (hread : f.read = .data data) (hdec : d.Unmarshal data = .ok m)
    (hact : m.Action = "message") :
    (∃ sent : Message User Room,
      sent.Sender = some c.user ∧ sent.Room = some c.hub.room ∧
      sent.Action = "message" ∧ sent.Text = m.Text ∧
      readFrame d c f = ([.connRead true, .hubMessage sent], true) ∧
      (readWS d c (pre ++ f :: post)).1 =
        readSetup ++ (readLoop d c pre).1 ++ [.connRead true, .hubMessage sent] ++
          (readLoop d c post).1 ++
          (if (readLoop d c post).2 then [.hubUnregister (goneUnreg d c)] else [])) ∧
    (∀ sent : Message User Room, Event.hubMessage sent ∈ (readWS d c (pre ++ f :: post)).1 →
      sent.Sender = some c.user ∧ sent.Room = some c.hub.room) := by
  have hf := readFrame_message d c f data m hread hdec hact
  constructor
  · refine ⟨_, ?_, ?_, ?_, ?_, hf, ?_⟩ <;> try rfl
    have hc : (readFrame d c f).2 = true := by rw [hf]
    simp [readWS, readLoop_continue_at d c pre post f hpre hc, hf]
  · intro sent hs
    simp only [readWS, readSetup, List.mem_append, List.mem_cons, List.mem_singleton] at hs
    rcases hs with (hs | hs) | hs
    · simp at hs
    · exact readLoop_hubMessage d c _ sent hs
    · split at hs <;> simp at hs

/-- Witness of C1: alice, in room 5, sends a chat frame that claims to come
from mallory in room 9. -/
theorem readWS_stamps_sender_and_room_witness :
    (readWS exDeps exAlice [⟨.data "chat hi", none⟩]).1 =
      readSetup ++
        [.connRead true,
         .hubMessage { Action := "message", Sender := some ⟨"alice", false, some 5⟩,
                       Recipient := none, Room := some 5, Text := "hi" }] := by
  obtain ⟨⟨sent, h1, h2, h3, h4, h5, h6⟩, -⟩ :=
    readWS_stamps_sender_and_room exDeps exAlice [] [] ⟨.data "chat hi", none⟩ "chat hi"
      { Action := "message", Sender := some ⟨"mallory", true, some 9⟩, Recipient := none,
        Room := some 9, Text := "hi" } rfl rfl rfl rfl
  rfl

/-- The `switch` on a moderation action: `manage` is called exactly when the
session's user passes `checkPrivilege`. -/
theorem dispatch_moderation {User Room : Type} (d : Deps User Room) (c : Client User Room)
    (me : Option String) (m : Message User Room)
    (hact : m.Action = "mute" ∨ m.Action = "kick" ∨ m.Action = "ban") :
    dispatch d c me m =
      if d.checkPrivilege c.user m.Action then
        match me with
        | some err =>
          ([.manage c.user m.Recipient m.Action true,
            .log (println2 "User management error:" err)], false)
        | none => ([.manage c.user m.Recipient m.Action false], true)
      else ([.log (println2 "Not enough rights for action:" m.Action)], false) := by
  unfold dispatch
  rcases hact with h | h | h <;> simp [h]

/-- The turn of the reader on a frame that decodes to a moderation message. -/
theorem readFrame_moderation {User Room : Type} (d : Deps User Room) (c : Client User Room)
    (f : Frame) (data : String) (m : Message User Room)
    (hread : f.read = .data data) (hdec : d.Unmarshal data = .ok m)
    (hact : m.Action = "mute" ∨ m.Action = "kick" ∨ m.Action = "ban") :
    readFrame d c f =
      if d.checkPrivilege c.user m.Action then
        match f.manageErr with
        | some err =>
          ([.connRead true,
            .manage c.user (m.Recipient.map (fun r => d.addRoomInfo r (d.Id c.hub.room)))
              m.Action true,
            .log (println2 "User management error:" err)], false)
        | none =>
          ([.connRead true,
            .manage c.user (m.Recipient.map (fun r => d.addRoomInfo r (d.Id c.hub.room)))
              m.Action false], true)
      else ([.connRead true, .log (println2 "Not enough rights for action:" m.Action)], false) := by
  rw [readFrame_decoded d c f data m hread hdec, dispatch_moderation d c _ _
    (by rw [stampRoom_eq]; exact hact), stampRoom_eq]
  by_cases hp : d.checkPrivilege c.user m.Action = true
  · cases f.manageErr <;> simp [hp]
  · simp [hp]

/-- C3: whenever the reader reaches a frame that decodes to a message whose
action is "mute", "kick" or "ban" and the session's user fails `checkPrivilege`
for that action, the turn calls `manage` not at all, logs the refusal and
leaves the loop: `readWS` returns having read no frame after this one. -/
theorem readWS_unprivileged_moderation_exits {User Room : Type} (d : Deps User Room)
    (c : Client User Room) (pre post : List Frame) (f : Frame) (data : String)
    (m : Message User Room) (hpre : (readLoop d c pre).2 = false)
    (hread : f.read = .data data) (hdec : d.Unmarshal data = .ok m)
    (hact : m.Action = "mute" ∨ m.Action = "kick" ∨ m.Action = "ban")
    (hpriv : d.checkPrivilege c.user m.Action = false) :
    readFrame d c f =
      ([.connRead true, .log (println2 "Not enough rights for action:" m.Action)], false) ∧
    (∀ e ∈ (readFrame d c f).1, e.isManage = false) ∧
    readWS d c (pre ++ f :: post) =
      (readSetup ++ (readLoop d c pre).1 ++
        [.connRead true, .log (println2 "Not enough rights for action:" m.Action)] ++
        [.hubUnregister (goneUnreg d c)], true) ∧
    ((readWS d c (pre ++ f :: post)).1.countP Event.isConnRead =
      (readLoop d c pre).1.countP Event.isConnRead + 1) := by
  have hf : readFrame d c f =
      ([.connRead true, .log (println2 "Not enough rights for action:" m.Action)], false) := by
    rw [readFrame_moderation d c f data m hread hdec hact]
    simp [hpriv]
  have hw := readWS_return_at d c pre post f hpre (by rw [hf])
  rw [hf] at hw
  refine ⟨hf, ?_, hw, ?_⟩
  · intro e he
    rw [hf] at he
    simp at he
    rcases he with rfl | rfl <;> rfl
  · rw [hw]
    simp [readSetup, List.countP_append, List.countP_cons, Event.isConnRead]

/-- Witness of C3: alice, who is no moderator, asks to ban bob; the frame that
follows is never read. -/
theorem readWS_unprivileged_moderation_exits_witness :
    readWS exDeps exAlice [⟨.data "ban bob", none⟩, ⟨.data "chat hi", none⟩] =
      (readSetup ++ [.connRead true, .log "Not enough rights for action: ban",
        .hubUnregister { client := exAlice, msg := "alice has gone" }], true) :=
  (readWS_unprivileged_moderation_exits exDeps exAlice [] [⟨.data "chat hi", none⟩]
    ⟨.data "ban bob", none⟩ "ban bob"
    { Action := "ban", Sender := none, Recipient := some ⟨"bob", false, none⟩,
      Room := none, Text := "" } rfl rfl rfl (Or.inr (Or.inr rfl)) rfl).2.2.1

/-- C7: whenever the reader reaches a frame that `ReadMessage` delivers and
`json.Unmarshal` rejects, the turn submits nothing to `hub.message`, calls
`manage` not at all, logs the decode error and leaves the loop: `readWS`
returns having read no frame after this one.  The empty frame is covered like
any other frame the codec rejects. -/
theorem readWS_decode_error_exits {User Room : Type} (d : Deps User Room)
    (c : Client User Room) (pre post : List Frame) (f : Frame) (data err : String)
    (hpre : (readLoop d c pre).2 = false)
    (hread : f.read = .data data) (hdec : d.Unmarshal data = .error err) :
    readFrame d c f = ([.connRead true, .log (println2 "JSON decode error:" err)], false) ∧
    (∀ e ∈ (readFrame d c f).1, e.isHubMessage = false ∧ e.isManage = false) ∧
    readWS d c (pre ++ f :: post) =
      (readSetup ++ (readLoop d c pre).1 ++
        [.connRead true, .log (println2 "JSON decode error:" err)] ++
        [.hubUnregister (goneUnreg d c)], true) ∧
    ((readWS d c (pre ++ f :: post)).1.countP Event.isConnRead =
      (readLoop d c pre).1.countP Event.isConnRead + 1) := by
  have hf : readFrame d c f =
      ([.connRead true, .log (println2 "JSON decode error:" err)], false) := by
    unfold readFrame
    rw [hread]
    simp only [hdec]
  have hw := readWS_return_at d c pre post f hpre (by rw [hf])
  rw [hf] at hw
  refine ⟨hf, ?_, hw, ?_⟩
  · intro e he
    rw [hf] at he
    simp at he
    rcases he with rfl | rfl <;> exact ⟨rfl, rfl⟩
  · rw [hw]
    simp [readSetup, List.countP_append, List.countP_cons, Event.isConnRead]

/-- Witness of C7: after an unknown action, which the loop passes over, alice
sends the empty frame, which the example codec rejects. -/
theorem readWS_decode_error_exits_witness :
    readWS exDeps exAlice [⟨.data "wave", none⟩, ⟨.data "", none⟩, ⟨.data "chat hi", none⟩] =
      (readSetup ++ [.connRead true, .connRead true,
        .log "JSON decode error: invalid character",
        .hubUnregister { client := exAlice, msg := "alice has gone" }], true) :=
  (readWS_decode_error_exits exDeps exAlice [⟨.data "wave", none⟩] [⟨.data "chat hi", none⟩]
    ⟨.data "", none⟩ "" "invalid character" rfl rfl rfl).2.2.1

/-- C8: whenever the reader reaches a frame that decodes to a message whose
action is "mute", "kick" or "ban" and the session's user passes
`checkPrivilege` for that action, the turn calls `manage` exactly once, with
the session's user, the message's recipient (to which line 94 has added the
room's id, when there is a recipient) and the message's action; if `manage`
returns an error the loop is left at this frame and `readWS` returns, and if it
returns none the loop goes on with the frames that follow. -/
theorem readWS_privileged_moderation {User Room : Type} (d : Deps User Room)
    (c : Client User Room) (pre post : List Frame) (f : Frame) (data : String)
    (m : Message User Room) (hpre : (readLoop d c pre).2 = false)
    (hread : f.read = .data data) (hdec : d.Unmarshal data = .ok m)
    (hact : m.Action = "mute" ∨ m.Action = "kick" ∨ m.Action = "ban")
    (hpriv : d.checkPrivilege c.user m.Action = true) :
    (readFrame d c f).1.countP Event.isManage = 1 ∧
    (∀ err : String, f.manageErr = some err →
      readFrame d c f =
        ([.connRead true,
          .manage c.user (m.Recipient.map (fun r => d.addRoomInfo r (d.Id c.hub.room)))
            m.Action true,
          .log (println2 "User management error:" err)], false) ∧
      readWS d c (pre ++ f :: post) =
        (readSetup ++ (readLoop d c pre).1 ++ (readFrame d c f).1 ++
          [.hubUnregister (goneUnreg d c)], true)) ∧
    (f.manageErr = none →
      readFrame d c f =
        ([.connRead true,
          .manage c.user (m.Recipient.map (fun r => d.addRoomInfo r (d.Id c.hub.room)))
            m.Action false], true) ∧
      readLoop d c (pre ++ f :: post) =
        ((readLoop d c pre).1 ++ (readFrame d c f).1 ++ (readLoop d c post).1,
          (readLoop d c post).2)) := by
  have hf := readFrame_moderation d c f data m hread hdec hact
  rw [if_pos hpriv] at hf
  refine ⟨?_, ?_, ?_⟩
  · rw [hf]
    cases f.manageErr <;> simp [List.countP_cons, Event.isManage]
  · intro err he
    rw [he] at hf
    exact ⟨hf, readWS_return_at d c pre post f hpre (by rw [hf])⟩
  · intro he
    rw [he] at hf
    exact ⟨hf, readLoop_continue_at d c pre post f hpre (by rw [hf])⟩

/-- Witness of C8: carol, a moderator, bans bob twice; the first call of
`manage` succeeds and the loop goes on, the second fails and the loop is
left. -/
theorem readWS_privileged_moderation_witness :
    readLoop exDeps exCarol [⟨.data "ban bob", none⟩, ⟨.data "ban bob", some "no such user"⟩] =
      ([.connRead true, .manage ⟨"carol", true, some 5⟩ (some ⟨"bob", false, some 5⟩) "ban" false,
        .connRead true, .manage ⟨"carol", true, some 5⟩ (some ⟨"bob", false, some 5⟩) "ban" true,
        .log "User management error: no such user"], true) :=
  ((readWS_privileged_moderation exDeps exCarol [] [⟨.data "ban bob", some "no such user"⟩]
    ⟨.data "ban bob", none⟩ "ban bob"
    { Action := "ban", Sender := none, Recipient := some ⟨"bob", false, none⟩,
      Room := none, Text := "" } rfl rfl rfl (Or.inr (Or.inr rfl)) rfl).2.2 rfl).2

/-- C9: whenever the reader reaches a frame that decodes to a message whose
action is none of "message", "mute", "kick", "ban" (the empty action
included), the turn does nothing beyond the read: nothing is submitted to
`hub.message`, `manage` is not called, and the loop goes on with the frames
that follow. -/
theorem readWS_unknown_action_ignored {User Room : Type} (d : Deps User Room)
    (c : Client User Room) (pre post : List Frame) (f : Frame) (data : String)
    (m : Message User Room) (hpre : (readLoop d c pre).2 = false)
    (hread : f.read = .data data) (hdec : d.Unmarshal data = .ok m)
    (h1 : m.Action ≠ "message") (h2 : m.Action ≠ "mute") (h3 : m.Action ≠ "kick")
    (h4 : m.Action ≠ "ban") :
    readFrame d c f = ([.connRead true], true) ∧
    readLoop d c (pre ++ f :: post) =
      ((readLoop d c pre).1 ++ [.connRead true] ++ (readLoop d c post).1,
        (readLoop d c post).2) ∧
    (readWS d c (pre ++ [f])).2 = false := by
  have hf : readFrame d c f = ([.connRead true], true) := by
    rw [readFrame_decoded d c f data m hread hdec, stampRoom_eq]
    simp [dispatch, h1, h2, h3, h4]
  have hl := readLoop_continue_at d c pre post f hpre (by rw [hf])
  have hl0 := readLoop_continue_at d c pre [] f hpre (by rw [hf])
  rw [hf] at hl
  refine ⟨hf, hl, ?_⟩
  simp [readWS, hl0, readLoop]

/-- Witness of C9: alice sends an action the server does not know, then a chat
message, which is read and forwarded. -/
theorem readWS_unknown_action_ignored_witness :
    readLoop exDeps exAlice [⟨.data "wave", none⟩, ⟨.data "chat hi", none⟩] =
      ([.connRead true, .connRead true,
        .hubMessage { Action := "message", Sender := some ⟨"alice", false, some 5⟩,
                      Recipient := none, Room := some 5, Text := "hi" }], false) :=
  (readWS_unknown_action_ignored exDeps exAlice [] [⟨.data "chat hi", none⟩]
    ⟨.data "wave", none⟩ "wave"
    { Action := "wave", Sender := none, Recipient := none, Room := none, Text := "" }
    rfl rfl rfl (by decide) (by decide) (by decide) (by decide)).2.1

/-- C4, as the code has it: on a frame that decodes to a message whose action
is "mute", "kick" or "ban", the turn of the reader calls `manage` if and only
if the session's user passes `checkPrivilege` for the action; the target of
every such call is the message's recipient as it stands after line 94, and the
recipient is never tested: when the message names no recipient and the user is
privileged, `manage` is called with a nil target. -/
theorem readWS_manage_target_unchecked {User Room : Type} (d : Deps User Room)
    (c : Client User Room) (f : Frame) (data : String) (m : Message User Room)
    (hread : f.read = .data data) (hdec : d.Unmarshal data = .ok m)
    (hact : m.Action = "mute" ∨ m.Action = "kick" ∨ m.Action = "ban") :
    ((∃ e ∈ (readFrame d c f).1, e.isManage = true) ↔
      d.checkPrivilege c.user m.Action = true) ∧
    (∀ (actor : User) (target : Option User) (action : String) (failed : Bool),
      Event.manage actor target action failed ∈ (readFrame d c f).1 →
        actor = c.user ∧ action = m.Action ∧
        target = m.Recipient.map (fun r => d.addRoomInfo r (d.Id c.hub.room))) ∧
    (m.Recipient = none → d.checkPrivilege c.user m.Action = true →
      Event.manage c.user none m.Action f.manageErr.isSome ∈ (readFrame d c f).1) := by
  have hf := readFrame_moderation d c f data m hread hdec hact
  by_cases hp : d.checkPrivilege c.user m.Action = true
  · rw [if_pos hp] at hf
    cases hm : f.manageErr with
    | none =>
      rw [hm] at hf
      refine ⟨⟨fun _ => hp, fun _ =>
        ⟨.manage c.user (m.Recipient.map (fun r => d.addRoomInfo r (d.Id c.hub.room)))
          m.Action false, ?_, rfl⟩⟩, ?_, ?_⟩
      · rw [hf]; exact List.mem_cons_of_mem _ (List.mem_cons_self _ _)
      · intro actor target action failed he
        rw [hf] at he
        simp at he
        exact ⟨he.1, he.2.2.1, he.2.1⟩
      · intro hn _
        rw [hf, hn]
        simp
    | some err =>
      rw [hm] at hf
      refine ⟨⟨fun _ => hp, fun _ =>
        ⟨.manage c.user (m.Recipient.map (fun r => d.addRoomInfo r (d.Id c.hub.room)))
          m.Action true, ?_, rfl⟩⟩, ?_, ?_⟩
      · rw [hf]; exact List.mem_cons_of_mem _ (List.mem_cons_self _ _)
      · intro actor target action failed he
        rw [hf] at he
        simp at he
        exact ⟨he.1, he.2.2.1, he.2.1⟩
      · intro hn _
        rw [hf, hn]
        simp
  · rw [if_neg hp] at hf
    refine ⟨⟨?_, fun h => absurd h hp⟩, ?_, fun _ h => absurd h hp⟩
    · rintro ⟨e, he, hm⟩
      rw [hf] at he
      simp at he
      rcases he with rfl | rfl <;> simp [Event.isManage] at hm
    · intro actor target action failed he
      rw [hf] at he
      simp at he

/-- Witness of the amended C4: the ban that names nobody, sent by carol, a
moderator, reaches `manage` with a nil target. -/
theorem readWS_manage_target_unchecked_witness :
    Event.manage ⟨"carol", true, some 5⟩ none "ban" false ∈
      (readFrame exDeps exCarol ⟨.data "ban", none⟩).1 :=
  (readWS_manage_target_unchecked exDeps exCarol ⟨.data "ban", none⟩ "ban"
    { Action := "ban", Sender := none, Recipient := none, Room := none, Text := "" }
    rfl rfl (Or.inr (Or.inr rfl))).2.2 rfl rfl

/-- Counterexample to C4 as stated: carol, a moderator, sends a ban that names
no recipient; the frame decodes, and `manage` is called with a nil target. -/
theorem readWS_manage_called_without_recipient :
    exUnmarshal "ban" =
      .ok { Action := "ban", Sender := none, Recipient := none, Room := none, Text := "" } ∧
    readWS exDeps exCarol [⟨.data "ban", none⟩] =
      (readSetup ++ [.connRead true, .manage ⟨"carol", true, some 5⟩ none "ban" false], false) :=
  ⟨rfl, rfl⟩

/-! ## The writer's loop and the deferred functions -/

theorem writeLoop_cons_continue {User Room : Type} (d : Deps User Room) (c : Client User Room)
    (s : Select User Room) (ss : List (Select User Room)) (h : (writeSelect d c s).2 = true) :
    writeLoop d c (s :: ss) =
      ((writeSelect d c s).1 ++ (writeLoop d c ss).1, (writeLoop d c ss).2) := by
  simp [writeLoop, h]

theorem writeLoop_cons_return {User Room : Type} (d : Deps User Room) (c : Client User Room)
    (s : Select User Room) (ss : List (Select User Room)) (h : (writeSelect d c s).2 = false) :
    writeLoop d c (s :: ss) = ((writeSelect d c s).1, true) := by
  simp [writeLoop, h]

theorem writeLoop_append {User Room : Type} (d : Deps User Room) (c : Client User Room)
    (pre rest : List (Select User Room)) (h : (writeLoop d c pre).2 = false) :
    writeLoop d c (pre ++ rest) =
      ((writeLoop d c pre).1 ++ (writeLoop d c rest).1, (writeLoop d c rest).2) := by
  induction pre with
  | nil => simp [writeLoop]
  | cons s ss ih =>
    by_cases hs : (writeSelect d c s).2 = true
    · rw [writeLoop_cons_continue d c s ss hs] at h
      rw [List.cons_append, writeLoop_cons_continue d c s _ hs, ih h,
        writeLoop_cons_continue d c s ss hs]
      simp
    · simp only [Bool.not_eq_true] at hs
      rw [writeLoop_cons_return d c s ss hs] at h
      simp at h

/-- The `switch` of the reader sends nothing on `hub.unregister`. -/
theorem dispatch_no_unregister {User Room : Type} (d : Deps User Room) (c : Client User Room)
    (me : Option String) (m : Message User Room) :
    (dispatch d c me m).1.countP Event.isUnregister = 0 := by
  unfold dispatch
  by_cases h1 : m.Action = "message"
  · simp [h1, Event.isUnregister]
  · by_cases h2 : m.Action = "mute" ∨ m.Action = "kick" ∨ m.Action = "ban"
    · by_cases h3 : d.checkPrivilege c.user m.Action = true
      · cases me <;> simp [h1, h2, h3, Event.isUnregister]
      · simp [h1, h2, h3, Event.isUnregister]
    · simp [h1, h2]

theorem readFrame_no_unregister {User Room : Type} (d : Deps User Room) (c : Client User Room)
    (f : Frame) : (readFrame d c f).1.countP Event.isUnregister = 0 := by
  cases hr : f.read with
  | error err u =>
    unfold readFrame
    rw [hr]
    cases u <;> simp [Event.isUnregister]
  | data data =>
    cases hd : d.Unmarshal data with
    | error e =>
      unfold readFrame
      rw [hr]
      simp [hd, Event.isUnregister]
    | ok m =>
      rw [readFrame_decoded d c f data m hr hd, List.countP_cons,
        dispatch_no_unregister]
      simp [Event.isUnregister]

theorem readLoop_no_unregister {User Room : Type} (d : Deps User Room) (c : Client User Room)
    (frames : List Frame) : (readLoop d c frames).1.countP Event.isUnregister = 0 := by
  induction frames with
  | nil => simp [readLoop]
  | cons f fs ih =>
    unfold readLoop
    split
    · simp [List.countP_append, readFrame_no_unregister, ih]
    · exact readFrame_no_unregister d c f

/-- The turn of the writer on a mailbox message that fails to encode. -/
theorem writeSelect_encode_error {User Room : Type} (d : Deps User Room)
    (c : Client User Room) (msg : Option (Message User Room)) (w : Option String)
    (err : String) (h : d.Marshal msg = .error err) :
    writeSelect d c (.mailbox msg w) =
      ([.recvMessage msg, .log (println2 "JSON encoding error:" err)], true) := by
  simp only [writeSelect, h]

/-- The turn of the writer on a mailbox message that encodes. -/
theorem writeSelect_encoded {User Room : Type} (d : Deps User Room)
    (c : Client User Room) (msg : Option (Message User Room)) (w : Option String)
    (msgJson : String) (h : d.Marshal msg = .ok msgJson) :
    writeSelect d c (.mailbox msg w) =
      match w with
      | some err =>
        ([.recvMessage msg, .connWrite .TextMessage msgJson true,
          .log (println2 "Message write error:" err)], false)
      | none => ([.recvMessage msg, .connWrite .TextMessage msgJson false], true) := by
  simp only [writeSelect, h]

/-- One turn of the writer neither stops the ticker nor sends on
`hub.unregister`. -/
theorem writeSelect_no_teardown {User Room : Type} (d : Deps User Room) (c : Client User Room)
    (s : Select User Room) :
    (writeSelect d c s).1.countP Event.isUnregister = 0 ∧
    (writeSelect d c s).1.countP Event.isTickerStop = 0 := by
  cases s with
  | mailbox msg w =>
    cases hm : d.Marshal msg with
    | error e =>
      rw [writeSelect_encode_error d c msg w e hm]
      simp [Event.isUnregister, Event.isTickerStop]
    | ok j =>
      rw [writeSelect_encoded d c msg w j hm]
      cases w <;> simp [Event.isUnregister, Event.isTickerStop]
  | tick w =>
    unfold writeSelect
    cases w <;> simp [Event.isUnregister, Event.isTickerStop]

theorem writeLoop_no_teardown {User Room : Type} (d : Deps User Room) (c : Client User Room)
    (selects : List (Select User Room)) :
    (writeLoop d c selects).1.countP Event.isUnregister = 0 ∧
    (writeLoop d c selects).1.countP Event.isTickerStop = 0 := by
  induction selects with
  | nil => simp [writeLoop]
  | cons s ss ih =>
    unfold writeLoop
    split
    · simp [List.countP_append, writeSelect_no_teardown, ih]
    · exact writeSelect_no_teardown d c s

/-- The reader's loop is left exactly when one of the supplied turns returns. -/
theorem readLoop_returns_iff {User Room : Type} (d : Deps User Room) (c : Client User Room)
    (frames : List Frame) :
    (readLoop d c frames).2 = true ↔ ∃ f ∈ frames, (readFrame d c f).2 = false := by
  induction frames with
  | nil => simp [readLoop]
  | cons f fs ih =>
    by_cases hf : (readFrame d c f).2 = true
    · rw [readLoop_cons_continue d c f fs hf]
      simp [ih, hf]
    · simp only [Bool.not_eq_true] at hf
      rw [readLoop_cons_return d c f fs hf]
      simp [hf]

/-- The writer's loop is left exactly when one of the supplied turns returns. -/
theorem writeLoop_returns_iff {User Room : Type} (d : Deps User Room) (c : Client User Room)
    (selects : List (Select User Room)) :
    (writeLoop d c selects).2 = true ↔ ∃ s ∈ selects, (writeSelect d c s).2 = false := by
  induction selects with
  | nil => simp [writeLoop]
  | cons s ss ih =>
    by_cases hs : (writeSelect d c s).2 = true
    · rw [writeLoop_cons_continue d c s ss hs]
      simp [ih, hs]
    · simp only [Bool.not_eq_true] at hs
      rw [writeLoop_cons_return d c s ss hs]
      simp [hs]

/-- A reader that has returned has sent one `Unreg`, last of all. -/
theorem readWS_returned {User Room : Type} (d : Deps User Room) (c : Client User Room)
    (frames : List Frame) (h : (readWS d c frames).2 = true) :
    (readWS d c frames).1 =
      readSetup ++ (readLoop d c frames).1 ++
        [.hubUnregister { client := c, msg := d.Username c.user ++ " has gone" }] ∧
    (readWS d c frames).1.countP Event.isUnregister = 1 := by
  have h2 : (readLoop d c frames).2 = true := h
  simp [readWS, h2, goneUnreg, List.countP_append, readLoop_no_unregister, readSetup,
    List.countP_cons, Event.isUnregister]

/-- A writer that has returned has stopped its ticker once and then sent one
`Unreg`, last of all. -/
theorem writeWS_returned {User Room : Type} (d : Deps User Room) (c : Client User Room)
    (selects : List (Select User Room)) (h : (writeWS d c selects).2 = true) :
    (writeWS d c selects).1 =
      [.newTicker pingPeriod] ++ (writeLoop d c selects).1 ++
        [.tickerStop,
         .hubUnregister { client := c, msg := d.Username c.user ++ " has gone" }] ∧
    (writeWS d c selects).1.countP Event.isUnregister = 1 ∧
    (writeWS d c selects).1.countP Event.isTickerStop = 1 := by
  have h2 : (writeLoop d c selects).2 = true := h
  have h3 := writeLoop_no_teardown d c selects
  simp [writeWS, h2, goneUnreg, List.countP_append, h3.1, h3.2,
    List.countP_cons, Event.isUnregister, Event.isTickerStop]

/-- C10: whenever `readWS` has returned, whichever turn of its loop returned,
the last event of its trace is the send on `hub.unregister` of the `Unreg`
whose client is this session and whose msg is the user's Username followed by
" has gone", and it is the only send on `hub.unregister` of the trace; whenever
`writeWS` has returned, its trace ends with `ticker.Stop()` followed by that
same send, each of which occurs once. -/
theorem deferred_unregister_on_return {User Room : Type} (d : Deps User Room)
    (c : Client User Room) (frames : List Frame) (selects : List (Select User Room)) :
    ((readWS d c frames).2 = true →
      (readWS d c frames).1 =
        readSetup ++ (readLoop d c frames).1 ++
          [.hubUnregister { client := c, msg := d.Username c.user ++ " has gone" }] ∧
      (readWS d c frames).1.countP Event.isUnregister = 1) ∧
    ((writeWS d c selects).2 = true →
      (writeWS d c selects).1 =
        [.newTicker pingPeriod] ++ (writeLoop d c selects).1 ++
          [.tickerStop,
           .hubUnregister { client := c, msg := d.Username c.user ++ " has gone" }] ∧
      (writeWS d c selects).1.countP Event.isUnregister = 1 ∧
      (writeWS d c selects).1.countP Event.isTickerStop = 1) := by
  exact ⟨readWS_returned d c frames, writeWS_returned d c selects⟩

/-- Witness of C10: the reader returns on a read error, the writer on a failed
ping. -/
theorem deferred_unregister_on_return_witness :
    (readWS exDeps exAlice [⟨.error "timeout" true, none⟩]).1 =
      readSetup ++ [.connRead false, .log "Read error: timeout"] ++
        [.hubUnregister { client := exAlice, msg := "alice has gone" }] ∧
    (writeWS exDeps exAlice [.tick (some "broken pipe")]).1 =
      [.newTicker pingPeriod] ++
        [.recvTick, .connWrite .PingMessage "" true, .log "Ping write error: broken pipe"] ++
        [.tickerStop, .hubUnregister { client := exAlice, msg := "alice has gone" }] :=
  ⟨((deferred_unregister_on_return exDeps exAlice [⟨.error "timeout" true, none⟩]
      [.tick (some "broken pipe")]).1 rfl).1,
   ((deferred_unregister_on_return exDeps exAlice [⟨.error "timeout" true, none⟩]
      [.tick (some "broken pipe")]).2 rfl).1⟩

/-- A turn of the writer returns exactly when it made a connection write that
failed. -/
theorem writeSelect_returns_iff {User Room : Type} (d : Deps User Room)
    (c : Client User Room) (s : Select User Room) :
    (writeSelect d c s).2 = false ↔ (writeSelect d c s).1.any Event.isFailedWrite = true := by
  cases s with
  | mailbox msg w =>
    cases hm : d.Marshal msg with
    | error e =>
      rw [writeSelect_encode_error d c msg w e hm]
      simp [Event.isFailedWrite]
    | ok j =>
      rw [writeSelect_encoded d c msg w j hm]
      cases w <;> simp [Event.isFailedWrite]
  | tick w =>
    unfold writeSelect
    cases w <;> simp [Event.isFailedWrite]

/-- C6: in the loop of `writeWS`, a turn (mailbox message or heartbeat tick)
returns exactly when it made a connection write that failed; a mailbox message
that fails to encode causes no connection write and leaves the loop running;
hence over any sequence of turns the loop is left at the first turn whose write
fails, after handling every earlier turn, and `writeWS` returns there, and a
sequence without a failed write leaves the loop running. -/
theorem writeWS_exits_at_first_failed_write {User Room : Type} (d : Deps User Room)
    (c : Client User Room) :
    (∀ s : Select User Room,
      (writeSelect d c s).2 = false ↔
        (writeSelect d c s).1.any Event.isFailedWrite = true) ∧
    (∀ (msg : Option (Message User Room)) (w : Option String) (err : String),
      d.Marshal msg = .error err →
        (writeSelect d c (.mailbox msg w)).1.countP Event.isConnWrite = 0 ∧
        (writeSelect d c (.mailbox msg w)).2 = true) ∧
    (∀ (pre post : List (Select User Room)) (s : Select User Room),
      (∀ x ∈ pre, (writeSelect d c x).1.any Event.isFailedWrite = false) →
      (writeSelect d c s).1.any Event.isFailedWrite = true →
        (writeLoop d c pre).2 = false ∧
        writeWS d c (pre ++ s :: post) =
          ([.newTicker pingPeriod] ++ (writeLoop d c pre).1 ++ (writeSelect d c s).1 ++
            [.tickerStop, .hubUnregister (goneUnreg d c)], true)) ∧
    (∀ selects : List (Select User Room),
      (∀ x ∈ selects, (writeSelect d c x).1.any Event.isFailedWrite = false) →
        (writeWS d c selects).2 = false) := by
  have hrun : ∀ l : List (Select User Room),
      (∀ x ∈ l, (writeSelect d c x).1.any Event.isFailedWrite = false) →
        (writeLoop d c l).2 = false := by
    intro l hl
    by_contra hne
    simp only [Bool.not_eq_false] at hne
    obtain ⟨x, hx, hx2⟩ := (writeLoop_returns_iff d c l).1 hne
    have := (writeSelect_returns_iff d c x).1 hx2
    rw [hl x hx] at this
    exact Bool.false_ne_true this
  refine ⟨writeSelect_returns_iff d c, ?_, ?_, ?_⟩
  · intro msg w err h
    rw [writeSelect_encode_error d c msg w err h]
    simp [Event.isConnWrite]
  · intro pre post s hpre hs
    have h1 := hrun pre hpre
    have h2 := (writeSelect_returns_iff d c s).2 hs
    refine ⟨h1, ?_⟩
    simp [writeWS, writeLoop_append d c pre (s :: post) h1, writeLoop_cons_return d c s post h2]
  · intro selects h
    exact hrun selects h

/-- Witness of C6: a message that fails to encode, a message that is written, a
ping that is written, then a message whose write fails; the tick that follows
is not handled. -/
theorem writeWS_exits_at_first_failed_write_witness :
    writeWS exDeps exAlice
        [.mailbox (some ⟨"", none, none, none, "x"⟩) (some "unused"),
         .mailbox (some ⟨"message", none, none, none, "hi"⟩) none,
         .tick none,
         .mailbox none (some "broken pipe"),
         .tick none] =
      ([.newTicker pingPeriod,
        .recvMessage (some ⟨"", none, none, none, "x"⟩),
        .log "JSON encoding error: unsupported value",
        .recvMessage (some ⟨"message", none, none, none, "hi"⟩),
        .connWrite .TextMessage "message hi" false,
        .recvTick, .connWrite .PingMessage "" false,
        .recvMessage none, .connWrite .TextMessage "null" true,
        .log "Message write error: broken pipe",
        .tickerStop, .hubUnregister { client := exAlice, msg := "alice has gone" }], true) :=
  ((writeWS_exits_at_first_failed_write exDeps exAlice).2.2.1
    [.mailbox (some ⟨"", none, none, none, "x"⟩) (some "unused"),
     .mailbox (some ⟨"message", none, none, none, "hi"⟩) none, .tick none]
    [.tick none] (.mailbox none (some "broken pipe")) (by decide) (by decide)).2

/-! ## The session -/

theorem countP_interleave {α : Type} (p : α → Bool) (s : List Bool) (xs ys : List α) :
    (interleave s xs ys).countP p = xs.countP p + ys.countP p := by
  induction s generalizing xs ys with
  | nil =>
    cases xs with
    | nil => simp [interleave]
    | cons x xs =>
      cases ys with
      | nil => simp [interleave]
      | cons y ys =>
        simp only [interleave, List.countP_append, List.countP_cons]
  | cons b s ih =>
    cases xs with
    | nil => simp [interleave]
    | cons x xs =>
      cases ys with
      | nil => simp [interleave]
      | cons y ys =>
        cases b
        · simp only [interleave, List.countP_cons, ih]
          omega
        · simp only [interleave, List.countP_cons, ih]
          omega

/-- C2, as the code has it: in every session that `handlerWS` starts, each of
`readWS` and `writeWS` sends one `Unreg` on `hub.unregister` when it returns;
so over any run in which both have returned, in whatever order their events
fall and whatever made them return, exactly two `Unreg` events have been sent
on `hub.unregister`. -/
theorem handlerWS_unregisters_once_per_task {User Room : Type} (d : Deps User Room)
    (hubs : Int → Option (Hub Room)) (roomId : Int) (upgrade : Except String Nat)
    (user : User) (frames : List Frame) (selects : List (Select User Room))
    (sched : List Bool) (hub : Hub Room) (conn : Nat)
    (hhub : hubs roomId = some hub) (hup : upgrade = .ok conn)
    (hr : (readWS d (newClient hub conn user) frames).2 = true)
    (hw : (writeWS d (newClient hub conn user) selects).2 = true) :
    (handlerWS d hubs roomId upgrade user frames selects sched).countP Event.isUnregister = 2 ∧
    (readWS d (newClient hub conn user) frames).1.countP Event.isUnregister = 1 ∧
    (writeWS d (newClient hub conn user) selects).1.countP Event.isUnregister = 1 := by
  have h1 := (readWS_returned d (newClient hub conn user) frames hr).2
  have h2 := (writeWS_returned d (newClient hub conn user) selects hw).2.1
  refine ⟨?_, h1, h2⟩
  subst hup
  simp only [handlerWS, hhub, List.countP_append, countP_interleave, h1, h2]
  simp [List.countP_cons, Event.isUnregister]

/-- Witness of the amended C2: the reader returns on a read error and the
writer on a failed ping. -/
theorem handlerWS_unregisters_once_per_task_witness :
    (handlerWS exDeps (fun _ => some ⟨5⟩) 5 (.ok 1) ⟨"alice", false, some 5⟩
      [⟨.error "eof" false, none⟩] [.tick (some "broken pipe")]
      [true, false]).countP Event.isUnregister = 2 :=
  (handlerWS_unregisters_once_per_task exDeps (fun _ => some ⟨5⟩) 5 (.ok 1)
    ⟨"alice", false, some 5⟩ [⟨.error "eof" false, none⟩] [.tick (some "broken pipe")]
    [true, false] ⟨5⟩ 1 rfl rfl rfl rfl).1

/-- Counterexample to C2 as stated: the peer goes away; the reader gets a read
error and returns, then the writer's next ping fails and it returns too.  Both
have returned, and two `Unreg` events, not one, have been sent on
`hub.unregister`. -/
theorem handlerWS_sends_two_unregs :
    (readWS exDeps (newClient ⟨5⟩ 1 ⟨"alice", false, some 5⟩)
      [⟨.error "eof" false, none⟩]).2 = true ∧
    (writeWS exDeps (newClient ⟨5⟩ 1 ⟨"alice", false, some 5⟩)
      [.tick (some "broken pipe")]).2 = true ∧
    handlerWS exDeps (fun _ => some ⟨5⟩) 5 (.ok 1) ⟨"alice", false, some 5⟩
      [⟨.error "eof" false, none⟩] [.tick (some "broken pipe")]
      [false, false, false, true, false, false] =
      [.log "Successfully connected", .hubRegister ⟨exAlice⟩,
       .setReadLimit 512, .setReadDeadline pongWait, .setPongHandler,
       .newTicker pingPeriod, .connRead false,
       .hubUnregister ⟨exAlice, "alice has gone"⟩,
       .recvTick, .connWrite .PingMessage "" true,
       .log "Ping write error: broken pipe", .tickerStop,
       .hubUnregister ⟨exAlice, "alice has gone"⟩] ∧
    (handlerWS exDeps (fun _ => some ⟨5⟩) 5 (.ok 1) ⟨"alice", false, some 5⟩
      [⟨.error "eof" false, none⟩] [.tick (some "broken pipe")]
      [false, false, false, true, false, false]).countP Event.isUnregister ≠ 1 :=
  ⟨rfl, rfl, rfl, by decide⟩

/-! ## `kill` -/

/-- When the bye-message encodes and the write succeeds, `kill` writes the
encoding as a text frame and closes the connection. -/
theorem kill_success {User Room : Type} (d : Deps User Room) (c : Client User Room)
    (msg : Option (Message User Room)) (msgJson : String) (h : d.Marshal msg = .ok msgJson) :
    kill d c msg none = [.connWrite .TextMessage msgJson false, .connClose] := by
  simp only [kill, h]

/-- C5 fails on the code: when the connection answers the write of the
bye-message with an error, `kill` logs it and returns without closing the
connection. -/
theorem kill_write_error_skips_close :
    kill exDeps exAlice (some ⟨"bye", none, none, none, "banned"⟩) (some "broken pipe") =
      [.connWrite .TextMessage "bye banned" true,
       .log "Bye-message write error: broken pipe"] ∧
    (kill exDeps exAlice (some ⟨"bye", none, none, none, "banned"⟩)
      (some "broken pipe")).countP (fun e => decide (e = Event.connClose)) = 0 :=
  ⟨rfl, by decide⟩

end Chat
